import Mathlib

/-!
Verification of the MedSync chain-engine core: a shallow embedding of the
compatibility evaluator (`compat_evaluator.py`), the chain analyzer
(`chain_analyzer.py`), the decision logic (`decision_logic.py`), the session
key sanitizer (`session_state.py`) and the device-chunk streaming loop
(`database_output_agent.py` / `main.py`), together with proofs of the
spec-level properties about them.

Numeric device values are modelled as rationals (the source uses Python
floats on decimal catalog data); nullable fields are `Option`.
-/

namespace MedSync

-- Concrete rational arithmetic must evaluate inside `decide` proofs.
attribute [local semireducible] Nat.gcd Rat.mul Rat.inv Rat.sub Rat.add

/-- Grading statuses used throughout the evaluator and analyzer
(the source uses the strings `"pass"`, `"pass_with_warning"`, `"warning"`,
`"fail"`, `"NA"`). -/
inductive Status where
  | pass
  | pass_with_warning
  | warning
  | fail
  | NA
  deriving DecidableEq, Repr, Inhabited

/-- Comparison operators appearing in `compat_field_logic`
(`"<="`, `">="`, `"="`). -/
inductive Op where
  | le
  | ge
  | eq
  deriving DecidableEq, Repr

/-- A manufacturer-compatibility field value.  In the source this is a raw
catalog cell: either a single nonnegative decimal number, or a range written
as the string `"low-high"`.  `evluate` distinguishes the two by looking for
`'-'` in the string form, so `single` models a value whose string form has no
`'-'` (catalog diameters are nonnegative) and `range` models `"low-high"`. -/
inductive CompatVal where
  | single (q : ℚ)
  | range (low high : ℚ)
  deriving DecidableEq, Repr

/-- The specification fields referenced by `compat_field_logic` and
`geometry_logic` (source key strings in comments). -/
inductive SpecField where
  | outer_diameter_distal_in    -- "specification_outer-diameter-distal_in"
  | outer_diameter_proximal_in  -- "specification_outer-diameter-proximal_in"
  | outer_diameter_distal_mm    -- "specification_outer-diameter-distal_mm"
  | outer_diameter_proximal_mm  -- "specification_outer-diameter-proximal_mm"
  | outer_diameter_distal_F     -- "specification_outer-diameter-distal_F"
  | outer_diameter_proximal_F   -- "specification_outer-diameter-proximal_F"
  | inner_diameter_in           -- "specification_inner-diameter_in"
  | inner_diameter_mm           -- "specification_inner-diameter_mm"
  | inner_diameter_F            -- "specification_inner-diameter_F"
  | length_cm                   -- "specification_length_cm"
  deriving DecidableEq, Repr

/-- The twelve compatibility fields of `compat_field_logic`
(source key strings in comments). -/
inductive CompatField where
  | wire_max_od_in     -- "compatibility_wire_max_outer-diameter_in"
  | wire_max_od_mm     -- "compatibility_wire_max_outer-diameter_mm"
  | wire_max_od_F      -- "compatibility_wire_max_outer-diameter_F"
  | catheter_max_od_in -- "compatibility_catheter_max_outer-diameter_in"
  | catheter_max_od_mm -- "compatibility_catheter_max_outer-diameter_mm"
  | catheter_max_od_F  -- "compatibility_catheter_max_outer-diameter_F"
  | catheter_req_id_in -- "compatibility_catheter_req_inner-diameter_in"
  | catheter_req_id_mm -- "compatibility_catheter_req_inner-diameter_mm"
  | catheter_req_id_F  -- "compatibility_catheter_req_inner-diameter_F"
  | gcs_min_id_in      -- "compatibility_guide_or_catheter_or_sheath_min_inner-diameter_in"
  | gcs_min_id_mm      -- "compatibility_guide_or_catheter_or_sheath_min_inner-diameter_mm"
  | gcs_min_id_F       -- "compatibility_guide_or_catheter_or_sheath_min_inner-diameter_F"
  deriving DecidableEq, Repr

/-- One device record (the fields of the catalog read by the evaluator).
A `none` models a null or empty-string cell (the source treats
`None` and `''` identically).  The max-OD and min-ID compatibility fields
hold plain numbers; only the required-ID fields may hold a range
(the `"="` operator is the only one that parses `"low-high"`). -/
structure Device where
  id : String
  device_name : String
  product_name : String
  logic_category : String     -- space-separated category tags
  fit_logic : String          -- "math" | "compat"
  spec_od_distal_in : Option ℚ
  spec_od_proximal_in : Option ℚ
  spec_od_distal_mm : Option ℚ
  spec_od_proximal_mm : Option ℚ
  spec_od_distal_F : Option ℚ
  spec_od_proximal_F : Option ℚ
  spec_id_in : Option ℚ
  spec_id_mm : Option ℚ
  spec_id_F : Option ℚ
  spec_length_cm : Option ℚ
  compat_wire_max_od_in : Option ℚ := none
  compat_wire_max_od_mm : Option ℚ := none
  compat_wire_max_od_F : Option ℚ := none
  compat_catheter_max_od_in : Option ℚ := none
  compat_catheter_max_od_mm : Option ℚ := none
  compat_catheter_max_od_F : Option ℚ := none
  compat_catheter_req_id_in : Option CompatVal := none
  compat_catheter_req_id_mm : Option CompatVal := none
  compat_catheter_req_id_F : Option CompatVal := none
  compat_gcs_min_id_in : Option ℚ := none
  compat_gcs_min_id_mm : Option ℚ := none
  compat_gcs_min_id_F : Option ℚ := none
  deriving DecidableEq, Repr

/-- `device.get(spec_field)`. -/
def spec_get (d : Device) : SpecField → Option ℚ
  | .outer_diameter_distal_in => d.spec_od_distal_in
  | .outer_diameter_proximal_in => d.spec_od_proximal_in
  | .outer_diameter_distal_mm => d.spec_od_distal_mm
  | .outer_diameter_proximal_mm => d.spec_od_proximal_mm
  | .outer_diameter_distal_F => d.spec_od_distal_F
  | .outer_diameter_proximal_F => d.spec_od_proximal_F
  | .inner_diameter_in => d.spec_id_in
  | .inner_diameter_mm => d.spec_id_mm
  | .inner_diameter_F => d.spec_id_F
  | .length_cm => d.spec_length_cm

/-- `device.get(compat_field)`, injecting plain numeric cells into
`CompatVal.single`. -/
def compat_get (d : Device) : CompatField → Option CompatVal
  | .wire_max_od_in => d.compat_wire_max_od_in.map .single
  | .wire_max_od_mm => d.compat_wire_max_od_mm.map .single
  | .wire_max_od_F => d.compat_wire_max_od_F.map .single
  | .catheter_max_od_in => d.compat_catheter_max_od_in.map .single
  | .catheter_max_od_mm => d.compat_catheter_max_od_mm.map .single
  | .catheter_max_od_F => d.compat_catheter_max_od_F.map .single
  | .catheter_req_id_in => d.compat_catheter_req_id_in
  | .catheter_req_id_mm => d.compat_catheter_req_id_mm
  | .catheter_req_id_F => d.compat_catheter_req_id_F
  | .gcs_min_id_in => d.compat_gcs_min_id_in.map .single
  | .gcs_min_id_mm => d.compat_gcs_min_id_mm.map .single
  | .gcs_min_id_F => d.compat_gcs_min_id_F.map .single

/-- One entry of the `compat_field_logic` table. -/
structure CompatRule where
  fields : List SpecField
  logic_category : List String
  operator : Op

/-- The `compat_field_logic` table of `CompatEvaluatorMulti`. -/
def compat_field_logic : CompatField → CompatRule
  | .wire_max_od_in =>
    ⟨[.outer_diameter_distal_in, .outer_diameter_proximal_in], ["wire"], .le⟩
  | .wire_max_od_mm =>
    ⟨[.outer_diameter_distal_mm, .outer_diameter_proximal_mm], ["wire"], .le⟩
  | .wire_max_od_F =>
    ⟨[.outer_diameter_distal_F, .outer_diameter_proximal_F], ["wire"], .le⟩
  | .catheter_max_od_in =>
    ⟨[.outer_diameter_distal_in, .outer_diameter_proximal_in], ["catheter"], .le⟩
  | .catheter_max_od_mm =>
    ⟨[.outer_diameter_distal_mm, .outer_diameter_proximal_mm], ["catheter"], .le⟩
  | .catheter_max_od_F =>
    ⟨[.outer_diameter_distal_F, .outer_diameter_proximal_F], ["catheter"], .le⟩
  | .catheter_req_id_in => ⟨[.inner_diameter_in], ["catheter"], .eq⟩
  | .catheter_req_id_mm => ⟨[.inner_diameter_mm], ["catheter"], .eq⟩
  | .catheter_req_id_F => ⟨[.inner_diameter_F], ["catheter"], .eq⟩
  | .gcs_min_id_in => ⟨[.inner_diameter_in], ["catheter", "guide", "sheath"], .ge⟩
  | .gcs_min_id_mm => ⟨[.inner_diameter_mm], ["catheter", "guide", "sheath"], .ge⟩
  | .gcs_min_id_F => ⟨[.inner_diameter_F], ["catheter", "guide", "sheath"], .ge⟩

/-- Iteration order of the `compat_field_logic` dict. -/
def compatFieldList : List CompatField :=
  [.wire_max_od_in, .wire_max_od_mm, .wire_max_od_F,
   .catheter_max_od_in, .catheter_max_od_mm, .catheter_max_od_F,
   .catheter_req_id_in, .catheter_req_id_mm, .catheter_req_id_F,
   .gcs_min_id_in, .gcs_min_id_mm, .gcs_min_id_F]

/-- `'outer-diameter' in field` on the concrete field-name strings. -/
def contains_outer_diameter : SpecField → Bool
  | .outer_diameter_distal_in | .outer_diameter_proximal_in
  | .outer_diameter_distal_mm | .outer_diameter_proximal_mm
  | .outer_diameter_distal_F | .outer_diameter_proximal_F => true
  | _ => false

/-- `'inner-diameter' in field` on the concrete field-name strings. -/
def contains_inner_diameter : SpecField → Bool
  | .inner_diameter_in | .inner_diameter_mm | .inner_diameter_F => true
  | _ => false

/-- One compatibility row as prepared by `prep_inner` / `prep_outer`
(only the fields read by `evluate` and `compatibility_grade`). -/
structure Row where
  typ : String                          -- 'inner' | 'outer'
  compatibility_field : CompatField
  compat_value : Option CompatVal
  specification_field : SpecField
  spec_value : Option ℚ
  applicable_category : Bool
  applicable_spec_field : Bool
  deriving DecidableEq, Repr

/-- `str.split(sep)` on the character list (Python explicit-separator
semantics: `"".split(" ") == [""]`). -/
def splitChars (sep : Char) : List Char → List (List Char)
  | [] => [[]]
  | c :: cs =>
    match splitChars sep cs with
    | [] => if c = sep then [[], []] else [[c]]
    | r :: rs => if c = sep then [] :: r :: rs else (c :: r) :: rs

/-- `logic_category.split(" ")`. -/
def split_logic_category (s : String) : List String :=
  (splitChars ' ' s.data).map fun cs => ⟨cs⟩

/-- `any(item in other_list for item in required)` where `other_list` is the
space-split of the other device's `logic_category`. -/
def category_applicable (required : List String) (other_logic_category : String) : Bool :=
  required.any fun item => (split_logic_category other_logic_category).contains item

/-- `CompatEvaluatorMulti.prep_inner`: the inner device is the claimant, the
outer device supplies the spec values. -/
def prep_inner (inner outer : Device) : List Row :=
  compatFieldList.flatMap fun cf =>
    (compat_field_logic cf).fields.map fun f =>
      { typ := "inner"
        compatibility_field := cf
        compat_value := compat_get inner cf
        specification_field := f
        spec_value := spec_get outer f
        applicable_category :=
          category_applicable (compat_field_logic cf).logic_category outer.logic_category
        applicable_spec_field := !contains_outer_diameter f }

/-- `CompatEvaluatorMulti.prep_outer`: the outer device is the claimant, the
inner device supplies the spec values. -/
def prep_outer (inner outer : Device) : List Row :=
  compatFieldList.flatMap fun cf =>
    (compat_field_logic cf).fields.map fun f =>
      { typ := "outer"
        compatibility_field := cf
        compat_value := compat_get outer cf
        specification_field := f
        spec_value := spec_get inner f
        applicable_category :=
          category_applicable (compat_field_logic cf).logic_category inner.logic_category
        applicable_spec_field := !contains_inner_diameter f }

/-- The full `holder` built in `go` (inner rows then outer rows). -/
def mkHolder (inner outer : Device) : List Row :=
  prep_inner inner outer ++ prep_outer inner outer

/-- The row-grading step of `CompatEvaluatorMulti.evluate`.  `none` models a
Python `ValueError` from `float()` applied to a `"low-high"` string (which can
only happen for a range value under `<=` / `>=`, impossible for rows produced
by the prep functions). -/
def evluateRow (r : Row) : Option Status :=
  if r.applicable_spec_field && r.applicable_category then
    match r.compat_value, r.spec_value with
    | none, _ => some .NA
    | _, none => some .NA
    | some cv, some sv =>
      match (compat_field_logic r.compatibility_field).operator with
      | .le =>
        match cv with
        | .single c => some (if sv ≤ c then .pass else .fail)
        | .range _ _ => none
      | .ge =>
        match cv with
        | .single c => some (if sv ≥ c then .pass else .fail)
        | .range _ _ => none
      | .eq =>
        match cv with
        | .range low high =>
          some (if sv ≥ low ∧ sv ≤ high then .pass else .fail)
        | .single c => some (if sv = c then .pass else .fail)
  else some .NA

/-- A total `Option`-valued map over a list, failing if any element fails
(models a Python loop that can raise). -/
def mapOpt (f : α → Option β) : List α → Option (List β)
  | [] => some []
  | x :: xs =>
    match f x, mapOpt f xs with
    | some y, some ys => some (y :: ys)
    | _, _ => none

/-- `CompatEvaluatorMulti.evluate` over the whole holder, returning the
graded statuses in row order. -/
def evluate (rows : List Row) : Option (List Status) :=
  mapOpt evluateRow rows

/-- `CompatEvaluatorMulti.compatibility_grade` reduced to the status it
records: `pass` if any row passed, else `fail` if any row failed, else `NA`
when every row is `NA`.  `none` models the source leaving
`pair['compatibility_status']` unset (possible only for an empty holder). -/
def compatibility_grade (statuses : List Status) : Option Status :=
  if statuses.contains .pass then some .pass
  else if statuses.contains .fail then some .fail
  else if statuses.contains .NA && statuses.all (· == .NA) then some .NA
  else none

/-! ### Geometry grading -/

/-- One entry of the `geometry_logic` table: the outer device's field and the
inner device's fields it is compared against. -/
def geometry_logic : List (SpecField × List SpecField) :=
  [(.inner_diameter_in, [.outer_diameter_distal_in, .outer_diameter_proximal_in]),
   (.inner_diameter_mm, [.outer_diameter_distal_mm, .outer_diameter_proximal_mm]),
   (.inner_diameter_F, [.outer_diameter_distal_F, .outer_diameter_proximal_F]),
   (.length_cm, [.length_cm])]

/-- One geometry row as built by `geometry_check` (only the fields read by
`geometry_math` and the grading helpers). -/
structure GeoRow where
  outer_device_specification_field : SpecField
  outer_device_specification_value : Option ℚ
  inner_device_specification_field : SpecField
  inner_device_specification_value : Option ℚ
  deriving DecidableEq, Repr

/-- `CompatEvaluatorMulti.geometry_check`. -/
def geometry_check (inner outer : Device) : List GeoRow :=
  geometry_logic.flatMap fun (cf, fields) =>
    fields.map fun f =>
      { outer_device_specification_field := cf
        outer_device_specification_value := spec_get outer cf
        inner_device_specification_field := f
        inner_device_specification_value := spec_get inner f }

/-- `'length' in field` on the concrete field-name strings. -/
def contains_length : SpecField → Bool
  | .length_cm => true
  | _ => false

/-- `field_name.endswith('_cm')` on the concrete field-name strings. -/
def endswith_cm : SpecField → Bool
  | .length_cm => true
  | _ => false

/-- `CompatEvaluatorMulti._is_length_field`. -/
def is_length_field (f : SpecField) : Bool :=
  contains_length f || endswith_cm f

/-- `CompatEvaluatorMulti._get_unit_type` (suffix of the field name). -/
def get_unit_type : SpecField → Option String
  | .outer_diameter_distal_in | .outer_diameter_proximal_in
  | .inner_diameter_in => some "in"
  | .outer_diameter_distal_mm | .outer_diameter_proximal_mm
  | .inner_diameter_mm => some "mm"
  | .outer_diameter_distal_F | .outer_diameter_proximal_F
  | .inner_diameter_F => some "F"
  | .length_cm => some "cm"

/-- `CompatEvaluatorMulti.DIAMETER_THRESHOLDS.get(unit_type, 0)`
(`0.003`, `0.0762`, `0.23091` as exact rationals). -/
def diameter_threshold : Option String → ℚ
  | some "in" => 3 / 1000
  | some "mm" => 762 / 10000
  | some "F" => 23091 / 100000
  | _ => 0

/-- `CompatEvaluatorMulti.LENGTH_THRESHOLD_CM`. -/
def LENGTH_THRESHOLD_CM : ℚ := 5

/-- The difference computed by `CompatEvaluatorMulti.geometry_math` for one
row (`none` is the `'NA'` difference). -/
def geometry_math (g : GeoRow) : Option ℚ :=
  match g.outer_device_specification_value, g.inner_device_specification_value with
  | some ov, some iv =>
    if !contains_length g.outer_device_specification_field then some (ov - iv)
    else some (iv - ov)
  | _, _ => none

/-- `CompatEvaluatorMulti._grade_single_geometry_result`, as a function of
the inner field and the computed difference. -/
def grade_single_geometry_result (f : SpecField) (difference : Option ℚ) : Status :=
  match difference with
  | none => .NA
  | some delta =>
    let threshold := if is_length_field f then LENGTH_THRESHOLD_CM
                     else diameter_threshold (get_unit_type f)
    if delta ≥ threshold then .pass
    else if delta > 0 ∧ delta < threshold then .warning
    else if delta ≤ 0 then .fail
    else .NA

/-- `CompatEvaluatorMulti._grade_geometry_subset` reduced to the status it
returns (`isDiameter` selects the diameter-specific all-NA tie-break). -/
def grade_geometry_subset (statuses : List Status) (isDiameter : Bool) : Status :=
  if statuses.isEmpty then .NA
  else
    let pass_count := statuses.countP (· = .pass)
    let warning_count := statuses.countP (· = .warning)
    if isDiameter && !statuses.contains .fail && pass_count < 2 &&
        pass_count + warning_count < 2 && statuses.all (· == .NA) then .NA
    else if statuses.contains .fail then .fail
    else if statuses.contains .pass then
      if statuses.contains .warning then .pass_with_warning else .pass
    else if statuses.contains .warning then .warning
    else .NA

/-- `'warning' in status_string` (true of `"warning"` and
`"pass_with_warning"`). -/
def status_contains_warning : Status → Bool
  | .warning | .pass_with_warning => true
  | _ => false

/-- `'pass' in status_string` (true of `"pass"` and `"pass_with_warning"`). -/
def status_contains_pass : Status → Bool
  | .pass | .pass_with_warning => true
  | _ => false

/-- `CompatEvaluatorMulti._combine_geometry_statuses`. -/
def combine_geometry_statuses (d_stat l_stat : Status) : Status :=
  if d_stat = .fail ∨ l_stat = .fail then .fail
  else if d_stat = .NA ∧ l_stat = .NA then .NA
  else if status_contains_warning d_stat || status_contains_warning l_stat then
    .pass_with_warning
  else if d_stat = .pass ∨ l_stat = .pass then .pass
  else .NA

/-- `CompatEvaluatorMulti.overall_grade` as a function of the fit-logic
declarations and the previously computed statuses; returns
`(overall_status, logic_type)`. -/
def overall_grade (inner_fit_logic outer_fit_logic : String)
    (compat_stat diameter_stat length_stat geo_stat : Status) : Status × String :=
  if inner_fit_logic = "math" ∧ outer_fit_logic = "math" then
    if geo_stat = .fail then (.fail, "math")
    else if geo_stat = .pass_with_warning then (.pass_with_warning, "math")
    else if geo_stat = .pass then (.pass, "math")
    else (.fail, "math")
  else
    if compat_stat = .fail then (.fail, "compat")
    else if compat_stat = .NA then
      if status_contains_pass diameter_stat && status_contains_pass length_stat then
        if status_contains_warning diameter_stat || status_contains_warning length_stat then
          (.pass_with_warning, "geometry_fallback")
        else (.pass, "geometry_fallback")
      else (.fail, "geometry_fallback")
    else if compat_stat = .pass then
      if length_stat = .fail then (.fail, "compat+length_fail")
      else if diameter_stat = .fail then (.pass_with_warning, "compat+geometry_warning")
      else if status_contains_warning diameter_stat || status_contains_warning length_stat then
        (.pass_with_warning, "compat+geometry_warning")
      else (.pass, "compat")
    else (compat_stat, "compat")

/-- The verdicts attached to a pair by `CompatEvaluatorMulti.go`. -/
structure PairOutcome where
  compatibility_status : Status
  diameter_status : Status
  length_status : Status
  geometry_status : Status
  overall_status : Status
  logic_type : String
  deriving DecidableEq, Repr

/-- The grading steps of `CompatEvaluatorMulti.go` after `evluate` has
produced the compatibility-row statuses. -/
def go_statuses (inner outer : Device) (statuses : List Status) : PairOutcome :=
    let compat_stat := (compatibility_grade statuses).getD .NA
    let geo_rows := geometry_check inner outer
    let graded := geo_rows.map fun g =>
      (g, grade_single_geometry_result g.inner_device_specification_field (geometry_math g))
    let length_results := graded.filter fun (g, _) =>
      is_length_field g.inner_device_specification_field
    let diameter_results := graded.filter fun (g, _) =>
      !is_length_field g.inner_device_specification_field
    let diameter_stat := grade_geometry_subset (diameter_results.map (·.2)) true
    let length_stat := grade_geometry_subset (length_results.map (·.2)) false
    let geo_stat := combine_geometry_statuses diameter_stat length_stat
    let overall := overall_grade inner.fit_logic outer.fit_logic
      compat_stat diameter_stat length_stat geo_stat
    { compatibility_status := compat_stat
      diameter_status := diameter_stat
      length_status := length_stat
      geometry_status := geo_stat
      overall_status := overall.1
      logic_type := overall.2 }

/-- `CompatEvaluatorMulti.go` reduced to the statuses it computes.  `none`
models an uncaught Python exception inside `evluate` (impossible for
well-typed devices, where `<=`/`>=` fields never hold ranges). -/
def go (inner outer : Device) : Option PairOutcome :=
  (evluate (mkHolder inner outer)).map (go_statuses inner outer)

/-! ### Chain analyzer (`chain_analyzer.py`) -/

/-- `status in ("pass", "pass_with_warning")` — the passing check applied to
a pair's overall status by `_analyze_connection` and `run_n1_subsets`. -/
def overall_passing (s : Status) : Bool :=
  s == .pass || s == .pass_with_warning

/-- The fields of a processed pair read by `ChainAnalyzerMulti`. -/
structure APair where
  inner_name : String
  outer_name : String
  overall_status : Status
  deriving DecidableEq, Repr

/-- The grouping key `f"{inner_name} -> {outer_name}"`. -/
def pair_product_key (p : APair) : String :=
  p.inner_name ++ " -> " ++ p.outer_name

/-- The key set of `pairs_by_product` in first-occurrence order (Python dict
insertion order). -/
def product_keys (pairs : List APair) : List String :=
  pairs.foldl
    (fun acc p =>
      if acc.contains (pair_product_key p) then acc else acc ++ [pair_product_key p])
    []

/-- `ChainAnalyzerMulti._analyze_connection` reduced to the status it
returns: pass iff every product combination has a variant pair whose overall
status is passing. -/
def analyze_connection (processed_pairs : List APair) : Status :=
  if (product_keys processed_pairs).all (fun k =>
      (processed_pairs.filter fun p => pair_product_key p == k).any fun p =>
        overall_passing p.overall_status)
  then .pass else .fail

/-- `ChainAnalyzerMulti._analyze_path` reduced to its status: pass unless
some connection's status is `fail`. -/
def analyze_path (connections : List (List APair)) : Status :=
  if (connections.map analyze_connection).all (· ≠ .fail) then .pass else .fail

/-- `ChainAnalyzerMulti._analyze_chain` reduced to its status: pass iff some
path's status is `pass`. -/
def analyze_chain (paths : List (List (List APair))) : Status :=
  if (paths.map analyze_path).any (· = .pass) then .pass else .fail

/-- The counts produced by `ChainAnalyzerMulti.get_summary`: chains are
partitioned on `status == "pass"`, giving
`(passing_chain_count, failing_chain_count)`. -/
def summary_counts (chain_statuses : List Status) : ℕ × ℕ :=
  (chain_statuses.countP (· = .pass), chain_statuses.countP (· ≠ .pass))

/-! ### Decision logic (`decision_logic.py`) -/

/-- `decide_next_action`, reduced to the action it returns, as a function of
the classification fields (with their dict defaults already applied) and the
chain-summary counts. -/
def decide_next_action (query_mode framing structure_ : String)
    (passing failing : ℕ) : String :=
  if failing = 0 ∧ passing > 0 then "return_as_is"
  else if passing = 0 ∧ failing > 0 then
    if structure_ = "multi_device" ∧
        (query_mode = "exploratory" ∨ query_mode = "discovery" ∨
         query_mode = "stack_validation") then
      "run_n1_subsets"
    else if structure_ = "two_device" ∧ framing = "positive" then
      "flag_gentle_correction"
    else "return_as_is"
  else "return_as_is"

/-! ### N-1 subsets (`decision_logic.run_n1_subsets` and the pair
generation / processing it relies on from `ChainPairGenerator`) -/

/-- One chain config: `{"sequence": [...], "levels": [...]}`. -/
structure ChainSpec where
  sequence : List String
  levels : List String
  deriving DecidableEq, Repr

/-- One entry of the `subset_results` list built by `run_n1_subsets`. -/
structure SubsetResult where
  removed_device : String
  subset_sequence : List String
  subset_levels : List String
  status : String
  deriving DecidableEq, Repr

/-- `devices.get(name, {}).get("ids", [])`. -/
def lookupIds (devices : List (String × List String)) (name : String) : List String :=
  ((devices.find? fun p => p.1 == name).map (·.2)).getD []

/-- `database.get(id, {})`, with `none` for a missing record (the evaluator
raises on an empty record, which `Option` propagation models). -/
def lookupDevice (database : List (String × Device)) (id : String) : Option Device :=
  (database.find? fun p => p.1 == id).map (·.2)

/-- The overall statuses of all processed pairs of one connection: the
`itertools.product` of the two id lists, each pair evaluated by
`CompatEvaluatorMulti.go` (as in `ChainPairGenerator.process_chain_results`). -/
def connection_pair_statuses (devices : List (String × List String))
    (database : List (String × Device)) (inner_name outer_name : String) :
    Option (List Status) :=
  let inner_ids := lookupIds devices inner_name
  let outer_ids := lookupIds devices outer_name
  mapOpt
    (fun (pr : String × String) =>
      (lookupDevice database pr.1).bind fun dinner =>
        (lookupDevice database pr.2).bind fun douter =>
          (go dinner douter).map (·.overall_status))
    (inner_ids.flatMap fun i => outer_ids.map fun o => (i, o))

/-- The overall statuses of every generated variant pair in every connection
of one subset chain (the pairs `run_n1_subsets` iterates over).  A chain
skipped by `generate_chain_pairs` (length `< 2` or a sequence/levels length
mismatch) contributes no pairs. -/
def n1_subset_pair_statuses (devices : List (String × List String))
    (database : List (String × Device)) (seq levels : List String) :
    Option (List Status) :=
  if seq.length < 2 ∨ seq.length ≠ levels.length then some []
  else
    (mapOpt (fun (c : String × String) => connection_pair_statuses devices database c.1 c.2)
      (seq.zip seq.tail)).map List.flatten

/-- One iteration of the `run_n1_subsets` loop body for one `remove_idx`:
skip subsets shorter than 2, else re-evaluate the subset chain and append a
result whose status is `pass` iff every pair's overall status is passing. -/
def n1_step (devices : List (String × List String))
    (database : List (String × Device)) (chain : ChainSpec)
    (acc : List SubsetResult) (remove_idx : ℕ) : Option (List SubsetResult) :=
  let removed_device := chain.sequence.getD remove_idx ""
  let subset_seq :=
    chain.sequence.take remove_idx ++ chain.sequence.drop (remove_idx + 1)
  let subset_levels :=
    chain.levels.take remove_idx ++ chain.levels.drop (remove_idx + 1)
  if subset_seq.length < 2 then some acc
  else
    (n1_subset_pair_statuses devices database subset_seq subset_levels).map
      fun sts =>
        acc ++ [{ removed_device := removed_device
                  subset_sequence := subset_seq
                  subset_levels := subset_levels
                  status := if sts.all overall_passing then "pass" else "fail" }]

/-- The body of `run_n1_subsets` for one original chain: skip chains of
fewer than 3 devices, else drop each index in turn via `n1_step`. -/
def n1_for_chain (devices : List (String × List String))
    (database : List (String × Device)) (chain : ChainSpec) :
    Option (List SubsetResult) :=
  if chain.sequence.length < 3 then some []
  else
    (List.range chain.sequence.length).foldlM (n1_step devices database chain) []

/-- `run_n1_subsets` over all original chains. -/
def run_n1_subsets (original_chains : List ChainSpec)
    (devices : List (String × List String)) (database : List (String × Device)) :
    Option (List SubsetResult) :=
  original_chains.foldlM
    (fun acc chain => (n1_for_chain devices database chain).map (acc ++ ·)) []

/-! ### Session key sanitization (`session_state.sanitize_for_firestore`) -/

/-- A Python dict key as seen by `sanitize_for_firestore`: `None`, a string,
or a non-string scalar (modelled by `int`, the representative the code
converts with `str()`). -/
inductive PyKey where
  | none
  | str (s : String)
  | int (i : ℤ)
  deriving DecidableEq, Repr

/-- A Python value: a dict (ordered key/value entries), a list, or any other
value (left untouched by sanitization, represented opaquely). -/
inductive PyVal where
  | dict (entries : List (PyKey × PyVal))
  | list (items : List PyVal)
  | other (repr : String)

/-- `s.replace('.', '_')` (character-wise, as for single-character
patterns). -/
def replaceDots (s : String) : String :=
  ⟨s.data.map fun c => if c = '.' then '_' else c⟩

/-- The key normalization inside `sanitize_for_firestore`: empty/`None` keys
become `"_empty"`, non-string keys are converted with `str()`, then `.` is
replaced by `_`. -/
def sanitize_key (k : PyKey) : String :=
  replaceDots
    (match k with
     | .none => "_empty"
     | .str s => if s = "" then "_empty" else s
     | .int i => toString i)

/-- `new_dict[k] = v` on an insertion-ordered dict: overwrite in place if the
key exists, else append. -/
def dictInsert (m : List (PyKey × PyVal)) (k : PyKey) (v : PyVal) :
    List (PyKey × PyVal) :=
  if m.any fun kv => kv.1 = k then
    m.map fun kv => if kv.1 = k then (k, v) else kv
  else m ++ [(k, v)]

/-- Rebuilding a dict by inserting its entries in order (Python dict
construction with possible key collisions). -/
def dictOfEntries (entries : List (PyKey × PyVal)) : List (PyKey × PyVal) :=
  entries.foldl (fun acc kv => dictInsert acc kv.1 kv.2) []

mutual

/-- `sanitize_for_firestore`: recursively sanitize all dict keys. -/
def sanitize_for_firestore : PyVal → PyVal
  | .dict entries => .dict (dictOfEntries (sanitizeEntries entries))
  | .list items => .list (sanitizeList items)
  | .other r => .other r

/-- Sanitize the entries of one dict (key normalization plus recursive value
sanitization, before collision handling). -/
def sanitizeEntries : List (PyKey × PyVal) → List (PyKey × PyVal)
  | [] => []
  | (k, v) :: rest =>
    (.str (sanitize_key k), sanitize_for_firestore v) :: sanitizeEntries rest

/-- Sanitize every element of a list. -/
def sanitizeList : List PyVal → List PyVal
  | [] => []
  | x :: xs => sanitize_for_firestore x :: sanitizeList xs

end

/-! ### Device-chunk streaming (`database_output_agent.py` /
`run_orchestrator_with_broker` in `main.py`) -/

/-- The `chunk_info` payload of a `query_result_device_chunk` /
`chain_category_chunk` event. -/
structure ChunkInfo where
  chunk_number : ℕ
  chunk_size : ℕ
  total_devices : ℕ
  is_final_chunk : Bool
  deriving DecidableEq, Repr

/-- The chunking loop `for i in range(0, total, 20)`: one event per
iteration carrying `device_list[i:i+20]` and its `chunk_info`. -/
def device_chunk_events (device_list : List α) (total i : ℕ) :
    List (ChunkInfo × List α) :=
  if i < total then
    let chunk := (device_list.drop i).take 20
    ({ chunk_number := i / 20 + 1
       chunk_size := chunk.length
       total_devices := total
       is_final_chunk := decide (i + 20 ≥ total) }, chunk)
      :: device_chunk_events device_list total (i + 20)
  else []
termination_by total - i
decreasing_by omega

/-- The events emitted for one device list (`total = len(device_list)`,
starting at `i = 0`). -/
def stream_device_chunks (device_list : List α) : List (ChunkInfo × List α) :=
  device_chunk_events device_list device_list.length 0

/-! ### Concrete example data (used to instantiate the universally
quantified theorems below) -/

/-- An inner device with `fit_logic = math` that declares a required
catheter inner diameter of `0.021 in` and a length of `100 cm`. -/
def d_inner_math : Device :=
  { id := "inner-1", device_name := "Inner Micro", product_name := "InnerProd",
    logic_category := "wire", fit_logic := "math",
    spec_od_distal_in := none, spec_od_proximal_in := none,
    spec_od_distal_mm := none, spec_od_proximal_mm := none,
    spec_od_distal_F := none, spec_od_proximal_F := none,
    spec_id_in := none, spec_id_mm := none, spec_id_F := none,
    spec_length_cm := some 100,
    compat_catheter_req_id_in := some (.single (21 / 1000)) }

/-- The same inner device but with `fit_logic = compat`. -/
def d_inner_compat : Device :=
  { d_inner_math with id := "inner-2", fit_logic := "compat" }

/-- An outer catheter with `fit_logic = math`, inner diameter `0.021 in` and
length `130 cm` (so the length geometry row fails: `100 - 130 ≤ 0`). -/
def d_outer_math : Device :=
  { id := "outer-1", device_name := "Outer Cath", product_name := "OuterProd",
    logic_category := "catheter", fit_logic := "math",
    spec_od_distal_in := none, spec_od_proximal_in := none,
    spec_od_distal_mm := none, spec_od_proximal_mm := none,
    spec_od_distal_F := none, spec_od_proximal_F := none,
    spec_id_in := some (21 / 1000), spec_id_mm := none, spec_id_F := none,
    spec_length_cm := some 130 }

/-- The first row of `mkHolder d_inner_math d_outer_math` (wire-max-OD vs
distal OD; not applicable for the inner claimant). -/
def c2_row : Row :=
  { typ := "inner", compatibility_field := .wire_max_od_in,
    compat_value := none, specification_field := .outer_diameter_distal_in,
    spec_value := none, applicable_category := false,
    applicable_spec_field := false }

/-- A fully applicable row whose claimant value is a range (used for the
`=`-operator range grading property). -/
def range_row (low high sv : ℚ) : Row :=
  { typ := "inner", compatibility_field := .catheter_req_id_in,
    compat_value := some (.range low high),
    specification_field := .inner_diameter_in, spec_value := some sv,
    applicable_category := true, applicable_spec_field := true }

/-- A small device map for the N-1 example: three products, one variant
each. -/
def n1_devices : List (String × List String) :=
  [("A", ["a1"]), ("B", ["b1"]), ("C", ["c1"])]

/-- The matching device database for the N-1 example. -/
def n1_database : List (String × Device) :=
  [("a1", d_inner_math), ("b1", d_outer_math), ("c1", d_inner_compat)]

/-- A three-device chain for the N-1 example. -/
def n1_chain : ChainSpec :=
  { sequence := ["A", "B", "C"], levels := ["L3", "L2", "L1"] }

/-- The subset results `run_n1_subsets` computes for the N-1 example. -/
def n1_result_example : List SubsetResult :=
  [{ removed_device := "A", subset_sequence := ["B", "C"],
     subset_levels := ["L2", "L1"], status := "fail" },
   { removed_device := "B", subset_sequence := ["A", "C"],
     subset_levels := ["L3", "L1"], status := "fail" },
   { removed_device := "C", subset_sequence := ["A", "B"],
     subset_levels := ["L3", "L2"], status := "fail" }]

/-- A single passing analyzer pair. -/
def sample_pair_pass : APair :=
  { inner_name := "A", outer_name := "B", overall_status := .pass_with_warning }

/-- The length geometry row of the pair `(d_inner_math, d_outer_math)`. -/
def geo_length_row_example : GeoRow :=
  { outer_device_specification_field := .length_cm
    outer_device_specification_value := some 130
    inner_device_specification_field := .length_cm
    inner_device_specification_value := some 100 }

/-- The outcome `go` computes for `(d_inner_math, d_outer_math)`. -/
def outcome_math : PairOutcome :=
  { compatibility_status := .pass, diameter_status := .NA, length_status := .fail,
    geometry_status := .fail, overall_status := .fail, logic_type := "math" }

/-- The outcome `go` computes for `(d_inner_compat, d_outer_math)`. -/
def outcome_compat_length_fail : PairOutcome :=
  { compatibility_status := .pass, diameter_status := .NA, length_status := .fail,
    geometry_status := .fail, overall_status := .fail,
    logic_type := "compat+length_fail" }

/-! ## Theorems -/

/-- The verdict fields of a `go` outcome satisfy the defining equations of
the grading pipeline. -/
theorem go_fields {inner outer : Device} {o : PairOutcome}
    (h : go inner outer = some o) :
    o.geometry_status = combine_geometry_statuses o.diameter_status o.length_status ∧
    (o.overall_status, o.logic_type) =
      overall_grade inner.fit_logic outer.fit_logic o.compatibility_status
        o.diameter_status o.length_status o.geometry_status := by
  rcases Option.map_eq_some'.mp h with ⟨sts, _, rfl⟩
  exact ⟨rfl, rfl⟩

/-- `_combine_geometry_statuses` never returns bare `warning`. -/
theorem combine_geometry_ne_warning (d l : Status) :
    combine_geometry_statuses d l ≠ .warning := by
  cases d <;> cases l <;> decide

/-- In the both-`math` branch, `overall_grade` returns the combined geometry
status except that `NA` (or the unreachable `warning`) becomes `fail`. -/
theorem overall_grade_math_branch (compat d l : Status) :
    (overall_grade "math" "math" compat d l (combine_geometry_statuses d l)).1 =
      if combine_geometry_statuses d l = .NA then .fail
      else combine_geometry_statuses d l := by
  cases d <;> cases l <;> cases compat <;> decide

/-- C4: for every pair whose devices both declare `fit_logic = math`, the
overall status equals the combined geometry status when that status is
pass, pass_with_warning or fail, and is fail when it is NA. -/
theorem math_fit_overall (inner outer : Device) (o : PairOutcome)
    (hgo : go inner outer = some o)
    (hi : inner.fit_logic = "math") (ho : outer.fit_logic = "math") :
    (o.geometry_status ≠ .NA → o.overall_status = o.geometry_status) ∧
    (o.geometry_status = .NA → o.overall_status = .fail) := by
  obtain ⟨hgeo, hov⟩ := go_fields hgo
  rw [hi, ho] at hov
  have h1 : o.overall_status =
      (overall_grade "math" "math" o.compatibility_status o.diameter_status
        o.length_status o.geometry_status).1 := congrArg Prod.fst hov
  rw [hgeo] at h1
  rw [overall_grade_math_branch] at h1
  rw [← hgeo] at h1
  constructor
  · intro hne
    rw [h1, if_neg hne]
  · intro hna
    rw [h1, if_pos hna]

/-- Witness for `math_fit_overall` at a concrete both-`math` pair. -/
theorem math_fit_overall_witness :
    go d_inner_math d_outer_math = some outcome_math ∧
    d_inner_math.fit_logic = "math" ∧ d_outer_math.fit_logic = "math" ∧
    ((outcome_math.geometry_status ≠ .NA →
        outcome_math.overall_status = outcome_math.geometry_status) ∧
     (outcome_math.geometry_status = .NA → outcome_math.overall_status = .fail)) :=
  ⟨by decide, rfl, rfl,
   math_fit_overall d_inner_math d_outer_math outcome_math (by decide) rfl rfl⟩

/-- C5 counterexample: a pair whose devices both declare `fit_logic = math`
can have compatibility verdict `pass` and length sub-verdict `fail`; its
overall status is `fail` but the recorded `logic_type` is `"math"`, not
`"compat+length_fail"` as the claim requires of every such pair. -/
theorem length_override_logic_type_cex :
    (go d_inner_math d_outer_math).map
        (fun o => (o.compatibility_status, o.length_status,
                   o.overall_status, o.logic_type)) =
      some (.pass, .fail, .fail, "math") ∧
    ("math" : String) ≠ "compat+length_fail" :=
  ⟨by decide, by decide⟩

/-- C5 amended: for every evaluated pair whose devices do not both declare
`fit_logic = math`, if the compatibility verdict is pass and the length
sub-verdict is fail then the overall status is fail and the recorded
logic_type is `compat+length_fail`. -/
theorem length_override_amended (inner outer : Device) (o : PairOutcome)
    (hgo : go inner outer = some o)
    (hnm : ¬(inner.fit_logic = "math" ∧ outer.fit_logic = "math"))
    (hc : o.compatibility_status = .pass) (hl : o.length_status = .fail) :
    o.overall_status = .fail ∧ o.logic_type = "compat+length_fail" := by
  obtain ⟨-, hov⟩ := go_fields hgo
  rw [overall_grade, if_neg hnm] at hov
  rw [hc, hl] at hov
  simp at hov
  exact hov

/-- Witness for `length_override_amended` at a concrete pair whose inner
device declares `fit_logic = compat`. -/
theorem length_override_amended_witness :
    go d_inner_compat d_outer_math = some outcome_compat_length_fail ∧
    ¬(d_inner_compat.fit_logic = "math" ∧ d_outer_math.fit_logic = "math") ∧
    (outcome_compat_length_fail.overall_status = .fail ∧
     outcome_compat_length_fail.logic_type = "compat+length_fail") :=
  ⟨by decide, by decide,
   length_override_amended d_inner_compat d_outer_math outcome_compat_length_fail
     (by decide) (by decide) (by decide) (by decide)⟩

/-- C6: a row graded with the `=` operator whose claimant value is the range
`low-high` passes iff `low ≤ spec value ≤ high` (bounds inclusive), else
fails; in particular `"0.017-0.021"` against `0.021` passes and against
`0.0211` fails. -/
theorem eq_range_row_grading :
    (∀ low high sv : ℚ,
       evluateRow (range_row low high sv) =
         some (if low ≤ sv ∧ sv ≤ high then .pass else .fail)) ∧
    evluateRow (range_row (17/1000) (21/1000) (21/1000)) = some .pass ∧
    evluateRow (range_row (17/1000) (21/1000) (211/10000)) = some .fail := by
  refine ⟨fun low high sv => ?_, by decide, by decide⟩
  simp [evluateRow, range_row, compat_field_logic]

/-- C7: the decision rules over the chain summary, for a non-empty chain
list: all chains passing gives `return_as_is`; all failing with a
multi-device structure and an exploratory / discovery / stack_validation
mode gives `run_n1_subsets`; all failing with a two-device structure and
positive framing gives `flag_gentle_correction`; otherwise
`return_as_is`. -/
theorem decision_rules (query_mode framing structure_ : String)
    (chain_statuses : List Status) (hne : chain_statuses ≠ []) :
    ((∀ s ∈ chain_statuses, s = .pass) →
       decide_next_action query_mode framing structure_
         (summary_counts chain_statuses).1 (summary_counts chain_statuses).2
         = "return_as_is") ∧
    ((∀ s ∈ chain_statuses, s ≠ .pass) → structure_ = "multi_device" →
       (query_mode = "exploratory" ∨ query_mode = "discovery" ∨
        query_mode = "stack_validation") →
       decide_next_action query_mode framing structure_
         (summary_counts chain_statuses).1 (summary_counts chain_statuses).2
         = "run_n1_subsets") ∧
    ((∀ s ∈ chain_statuses, s ≠ .pass) → structure_ = "two_device" →
       framing = "positive" →
       decide_next_action query_mode framing structure_
         (summary_counts chain_statuses).1 (summary_counts chain_statuses).2
         = "flag_gentle_correction") ∧
    (¬(∀ s ∈ chain_statuses, s = .pass) →
     ¬((∀ s ∈ chain_statuses, s ≠ .pass) ∧ structure_ = "multi_device" ∧
        (query_mode = "exploratory" ∨ query_mode = "discovery" ∨
         query_mode = "stack_validation")) →
     ¬((∀ s ∈ chain_statuses, s ≠ .pass) ∧ structure_ = "two_device" ∧
        framing = "positive") →
     decide_next_action query_mode framing structure_
       (summary_counts chain_statuses).1 (summary_counts chain_statuses).2
       = "return_as_is") := by
  obtain ⟨s0, hs0⟩ := List.exists_mem_of_ne_nil chain_statuses hne
  refine ⟨?_, ?_, ?_, ?_⟩
  · intro hall
    have hfail : (summary_counts chain_statuses).2 = 0 := by
      simp only [summary_counts, List.countP_eq_zero]
      intro s hs
      simp [hall s hs]
    have hpass : 0 < (summary_counts chain_statuses).1 := by
      simp only [summary_counts, List.countP_pos_iff]
      exact ⟨s0, hs0, by simp [hall s0 hs0]⟩
    simp [decide_next_action, hfail, hpass]
  · intro hall hstruct hmode
    have hpass : (summary_counts chain_statuses).1 = 0 := by
      simp only [summary_counts, List.countP_eq_zero]
      intro s hs
      simp [hall s hs]
    have hfail : 0 < (summary_counts chain_statuses).2 := by
      simp only [summary_counts, List.countP_pos_iff]
      exact ⟨s0, hs0, by simp [hall s0 hs0]⟩
    have hnot1 : ¬((summary_counts chain_statuses).2 = 0 ∧
        0 < (summary_counts chain_statuses).1) := by
      rintro ⟨h, -⟩
      omega
    simp [decide_next_action, hnot1, hpass, hfail, hstruct, hmode]
  · intro hall hstruct hframing
    have hpass : (summary_counts chain_statuses).1 = 0 := by
      simp only [summary_counts, List.countP_eq_zero]
      intro s hs
      simp [hall s hs]
    have hfail : 0 < (summary_counts chain_statuses).2 := by
      simp only [summary_counts, List.countP_pos_iff]
      exact ⟨s0, hs0, by simp [hall s0 hs0]⟩
    simp [decide_next_action, hpass, hfail, hstruct, hframing]
  · intro h1 h2 h3
    by_cases hzp : (summary_counts chain_statuses).1 = 0
    · have hallfail : ∀ s ∈ chain_statuses, s ≠ .pass := by
        simpa [summary_counts] using hzp
      have hfail : 0 < (summary_counts chain_statuses).2 := by
        simp only [summary_counts, List.countP_pos_iff]
        exact ⟨s0, hs0, by simp [hallfail s0 hs0]⟩
      have hc1 : ¬(structure_ = "multi_device" ∧
          (query_mode = "exploratory" ∨ query_mode = "discovery" ∨
           query_mode = "stack_validation")) :=
        fun ⟨ha, hb⟩ => h2 ⟨hallfail, ha, hb⟩
      have hc2 : ¬(structure_ = "two_device" ∧ framing = "positive") :=
        fun ⟨ha, hb⟩ => h3 ⟨hallfail, ha, hb⟩
      simp [decide_next_action, hzp, hfail, hc1, hc2]
    · by_cases hzf : (summary_counts chain_statuses).2 = 0
      · simp [decide_next_action, hzf, Nat.pos_of_ne_zero hzp]
      · simp [decide_next_action, hzf, hzp]

/-- Witness for `decision_rules` on a single passing chain. -/
theorem decision_rules_witness :
    ([Status.pass] ≠ ([] : List Status)) ∧
    decide_next_action "specific" "neutral" "two_device"
      (summary_counts [Status.pass]).1 (summary_counts [Status.pass]).2
      = "return_as_is" :=
  ⟨by decide,
   (decision_rules "specific" "neutral" "two_device" [.pass] (by decide)).1
     (by decide)⟩

/-- An `if`-graded status is `pass` exactly when its condition holds. -/
theorem aux_if_pass_fail (c : Prop) [Decidable c] :
    ((if c then Status.pass else Status.fail) = .pass) ↔ c := by
  split <;> simp_all

/-- `_analyze_connection` returns only `pass` or `fail`. -/
theorem analyze_connection_pass_or_fail (ps : List APair) :
    analyze_connection ps = .pass ∨ analyze_connection ps = .fail := by
  unfold analyze_connection
  split <;> simp

/-- C1: chain status is pass iff some path passes; path status is pass iff
every connection passes; connection status is pass iff every product
combination has at least one variant pair whose overall status is passing
(`pass` or `pass_with_warning`). -/
theorem chain_rollup_statuses (paths : List (List (List APair))) :
    (analyze_chain paths = .pass ↔ ∃ path ∈ paths, analyze_path path = .pass) ∧
    (∀ connections : List (List APair),
       analyze_path connections = .pass ↔
         ∀ c ∈ connections, analyze_connection c = .pass) ∧
    (∀ pairs : List APair,
       analyze_connection pairs = .pass ↔
         ∀ k ∈ product_keys pairs, ∃ p ∈ pairs,
           pair_product_key p = k ∧ overall_passing p.overall_status = true) := by
  refine ⟨?_, ?_, ?_⟩
  · rw [analyze_chain, aux_if_pass_fail]
    simp
  · intro conns
    rw [analyze_path, aux_if_pass_fail]
    simp only [List.all_eq_true, List.mem_map, decide_eq_true_eq,
      forall_exists_index, and_imp]
    constructor
    · intro h c hc
      rcases analyze_connection_pass_or_fail c with hp | hf
      · exact hp
      · exact absurd hf (h _ c hc rfl)
    · intro h x c hc hx
      subst hx
      simp [h c hc]
  · intro pairs
    rw [analyze_connection, aux_if_pass_fail]
    simp only [List.all_eq_true, List.any_eq_true, List.mem_filter]
    constructor
    · intro h k hk
      obtain ⟨p, ⟨hp, hkey⟩, hpass⟩ := h k hk
      exact ⟨p, hp, by simpa using hkey, hpass⟩
    · intro h k hk
      obtain ⟨p, hp, hkey, hpass⟩ := h k hk
      exact ⟨p, ⟨hp, by simpa using hkey⟩, hpass⟩

/-- Witness for `chain_rollup_statuses`: a one-pair connection with a
passing variant analyzes to `pass`. -/
theorem chain_rollup_statuses_witness :
    analyze_connection [sample_pair_pass] = .pass :=
  ((chain_rollup_statuses []).2.2 [sample_pair_pass]).mpr (by decide)

/-- Unfolding `device_chunk_events` past the end of the loop. -/
theorem device_chunk_events_stop {l : List α} {total i : ℕ} (h : ¬i < total) :
    device_chunk_events l total i = [] := by
  rw [device_chunk_events]
  simp [h]

/-- Unfolding one iteration of `device_chunk_events`. -/
theorem device_chunk_events_step {l : List α} {total i : ℕ} (h : i < total) :
    device_chunk_events l total i =
      ({ chunk_number := i / 20 + 1
         chunk_size := ((l.drop i).take 20).length
         total_devices := total
         is_final_chunk := decide (i + 20 ≥ total) }, (l.drop i).take 20)
        :: device_chunk_events l total (i + 20) := by
  rw [device_chunk_events]
  simp [h]

/-- Concatenating the chunks emitted from index `i` recovers `l.drop i`. -/
theorem chunk_flatten (l : List α) :
    ∀ n i, l.length - i ≤ n →
      ((device_chunk_events l l.length i).map (·.2)).flatten = l.drop i := by
  intro n
  induction n with
  | zero =>
    intro i hi
    rw [device_chunk_events_stop (by omega),
      List.drop_eq_nil_of_le (show l.length ≤ i by omega)]
    rfl
  | succ n ih =>
    intro i hi
    by_cases h : i < l.length
    · rw [device_chunk_events_step h]
      simp only [List.map_cons, List.flatten_cons]
      rw [ih (i + 20) (by omega)]
      rw [← List.drop_drop 20 i l, List.take_append_drop]
    · rw [device_chunk_events_stop h,
        List.drop_eq_nil_of_le (show l.length ≤ i by omega)]
      rfl

/-- Per-event facts: chunks hold at most 20 devices, `chunk_size` is the
chunk's length and `total_devices` is the full list length. -/
theorem chunk_mem (l : List α) :
    ∀ n i, l.length - i ≤ n →
      ∀ e ∈ device_chunk_events l l.length i,
        e.2.length ≤ 20 ∧ e.1.chunk_size = e.2.length ∧
        e.1.total_devices = l.length := by
  intro n
  induction n with
  | zero =>
    intro i hi e he
    rw [device_chunk_events_stop (by omega)] at he
    cases he
  | succ n ih =>
    intro i hi e he
    by_cases h : i < l.length
    · rw [device_chunk_events_step h] at he
      rcases List.mem_cons.mp he with rfl | he'
      · exact ⟨List.length_take_le _ _, rfl, rfl⟩
      · exact ih (i + 20) (by omega) e he'
    · rw [device_chunk_events_stop h] at he
      cases he

/-- The chunk numbers emitted from index `20 * k` are `k+1, k+2, …`. -/
theorem chunk_numbers (l : List α) :
    ∀ n k, l.length - 20 * k ≤ n →
      (device_chunk_events l l.length (20 * k)).map (·.1.chunk_number) =
        List.range' (k + 1) (device_chunk_events l l.length (20 * k)).length := by
  intro n
  induction n with
  | zero =>
    intro k hk
    rw [device_chunk_events_stop (by omega)]
    rfl
  | succ n ih =>
    intro k hk
    by_cases h : 20 * k < l.length
    · rw [device_chunk_events_step h]
      simp only [List.map_cons, List.length_cons]
      rw [List.range'_succ]
      refine congrArg₂ (· :: ·) (by omega) ?_
      have h20 : 20 * k + 20 = 20 * (k + 1) := by ring
      rw [h20]
      exact ih (k + 1) (by omega)
    · rw [device_chunk_events_stop h]
      rfl

/-- `is_final_chunk` is false on every chunk except the last, where it is
true. -/
theorem chunk_final (l : List α) :
    ∀ n i, l.length - i ≤ n → i < l.length →
      (device_chunk_events l l.length i).map (·.1.is_final_chunk) =
        List.replicate ((device_chunk_events l l.length i).length - 1) false
          ++ [true] := by
  intro n
  induction n with
  | zero =>
    intro i hi hlt
    omega
  | succ n ih =>
    intro i hi hlt
    rw [device_chunk_events_step hlt]
    by_cases h2 : i + 20 < l.length
    · have htail := ih (i + 20) (by omega) h2
      have hne : device_chunk_events l l.length (i + 20) ≠ [] := by
        rw [device_chunk_events_step h2]
        simp
      have hlen : 1 ≤ (device_chunk_events l l.length (i + 20)).length :=
        List.length_pos.mpr hne
      simp only [List.map_cons, List.length_cons, htail]
      have hdec : decide (i + 20 ≥ l.length) = false := by
        simp
        omega
      rw [hdec]
      rw [show (device_chunk_events l l.length (i + 20)).length + 1 - 1 =
            ((device_chunk_events l l.length (i + 20)).length - 1) + 1 by omega]
      rw [List.replicate_succ]
      rfl
    · rw [device_chunk_events_stop h2]
      have hdec : decide (i + 20 ≥ l.length) = true := by
        simp
        omega
      simp [hdec]

/-- C9: streaming a non-empty device list emits in-order chunks of at most
20 devices whose concatenation is the original list; `chunk_size` and
`total_devices` are correct in every chunk; `chunk_number` counts 1, 2, …;
and `is_final_chunk` is true exactly on the last chunk. -/
theorem device_chunk_stream_spec (device_list : List α)
    (hne : device_list ≠ []) :
    ((stream_device_chunks device_list).map (·.2)).flatten = device_list ∧
    (∀ e ∈ stream_device_chunks device_list,
       e.2.length ≤ 20 ∧ e.1.chunk_size = e.2.length ∧
       e.1.total_devices = device_list.length) ∧
    (stream_device_chunks device_list).map (·.1.chunk_number) =
      List.range' 1 (stream_device_chunks device_list).length ∧
    (stream_device_chunks device_list).map (·.1.is_final_chunk) =
      List.replicate ((stream_device_chunks device_list).length - 1) false
        ++ [true] := by
  have hlen : 0 < device_list.length := List.length_pos.mpr hne
  refine ⟨?_, ?_, ?_, ?_⟩
  · simpa using chunk_flatten device_list device_list.length 0 (by omega)
  · exact chunk_mem device_list device_list.length 0 (by omega)
  · have h := chunk_numbers device_list device_list.length 0 (by omega)
    simpa using h
  · exact chunk_final device_list device_list.length 0 (by omega) hlen

/-- Witness for `device_chunk_stream_spec` on a 25-element list (two
chunks). -/
theorem device_chunk_stream_spec_witness :
    (List.range 25 ≠ []) ∧
    ((stream_device_chunks (List.range 25)).map (·.2)).flatten =
      List.range 25 :=
  ⟨by decide, (device_chunk_stream_spec (List.range 25) (by decide)).1⟩

/-- The pass / warning / fail characterization of the geometry if-chain for
a positive threshold. -/
theorem aux_grade_iffs (th d : ℚ) (hth : 0 < th) :
    ((if d ≥ th then Status.pass
      else if d > 0 ∧ d < th then Status.warning
      else if d ≤ 0 then Status.fail else Status.NA) = .pass ↔ th ≤ d) ∧
    ((if d ≥ th then Status.pass
      else if d > 0 ∧ d < th then Status.warning
      else if d ≤ 0 then Status.fail else Status.NA) = .warning ↔ 0 < d ∧ d < th) ∧
    ((if d ≥ th then Status.pass
      else if d > 0 ∧ d < th then Status.warning
      else if d ≤ 0 then Status.fail else Status.NA) = .fail ↔ d ≤ 0) := by
  split_ifs with h1 h2 h3 <;> refine ⟨?_, ?_, ?_⟩ <;> (simp_all; try linarith)

/-- The grading property of one well-formed geometry row: the difference
orientation and the threshold comparison. -/
theorem aux_geo_row (g : GeoRow)
    (hdir : contains_length g.outer_device_specification_field =
      is_length_field g.inner_device_specification_field)
    (hth : 0 < (if is_length_field g.inner_device_specification_field then (5 : ℚ)
                else diameter_threshold (get_unit_type g.inner_device_specification_field))) :
    (∀ ov iv, g.outer_device_specification_value = some ov →
       g.inner_device_specification_value = some iv →
       ∀ d, geometry_math g = some d →
         d = (if is_length_field g.inner_device_specification_field
              then iv - ov else ov - iv) ∧
         (grade_single_geometry_result g.inner_device_specification_field (some d)
            = .pass ↔
           (if is_length_field g.inner_device_specification_field then (5 : ℚ)
            else diameter_threshold (get_unit_type g.inner_device_specification_field))
             ≤ d) ∧
         (grade_single_geometry_result g.inner_device_specification_field (some d)
            = .warning ↔
           0 < d ∧ d <
            (if is_length_field g.inner_device_specification_field then (5 : ℚ)
             else diameter_threshold (get_unit_type g.inner_device_specification_field))) ∧
         (grade_single_geometry_result g.inner_device_specification_field (some d)
            = .fail ↔ d ≤ 0)) ∧
    ((g.outer_device_specification_value = none ∨
      g.inner_device_specification_value = none) →
       grade_single_geometry_result g.inner_device_specification_field
         (geometry_math g) = .NA) := by
  constructor
  · intro ov iv hov hiv d hd
    rw [geometry_math, hov, hiv] at hd
    rw [hdir] at hd
    have hgrade := aux_grade_iffs
      (if is_length_field g.inner_device_specification_field then (5 : ℚ)
       else diameter_threshold (get_unit_type g.inner_device_specification_field))
      d hth
    have hunf : grade_single_geometry_result
        g.inner_device_specification_field (some d) =
        (if d ≥ (if is_length_field g.inner_device_specification_field then (5 : ℚ)
                 else diameter_threshold (get_unit_type g.inner_device_specification_field))
         then Status.pass
         else if d > 0 ∧ d <
            (if is_length_field g.inner_device_specification_field then (5 : ℚ)
             else diameter_threshold (get_unit_type g.inner_device_specification_field))
          then Status.warning
          else if d ≤ 0 then Status.fail else Status.NA) := by
      rw [grade_single_geometry_result]
      cases h : is_length_field g.inner_device_specification_field <;>
        simp [h, LENGTH_THRESHOLD_CM]
    refine ⟨?_, ?_, ?_, ?_⟩
    · cases h : is_length_field g.inner_device_specification_field <;>
        (rw [h] at hd; simp at hd; simp [h, ← hd])
    · rw [hunf]
      exact hgrade.1
    · rw [hunf]
      exact hgrade.2.1
    · rw [hunf]
      exact hgrade.2.2
  · intro hnone
    rcases hnone with h | h
    · rw [geometry_math, h]
      rfl
    · rw [geometry_math, h]
      rcases g.outer_device_specification_value <;> rfl

/-- C3: for every geometry row, the difference is `outer − inner` for
diameter rows and `inner − outer` for length rows; with both values present
the row grades pass iff the difference is at least the dimension's threshold
(`0.003 in`, `0.0762 mm`, `0.23091 F`, `5 cm`), warning iff it is strictly
between 0 and the threshold, fail iff it is at most 0; a missing value on
either side grades NA. -/
theorem geometry_row_grading (inner outer : Device) :
    (∀ g ∈ geometry_check inner outer,
      (∀ ov iv, g.outer_device_specification_value = some ov →
         g.inner_device_specification_value = some iv →
         ∀ d, geometry_math g = some d →
           d = (if is_length_field g.inner_device_specification_field
                then iv - ov else ov - iv) ∧
           (grade_single_geometry_result g.inner_device_specification_field
              (some d) = .pass ↔
             (if is_length_field g.inner_device_specification_field then (5 : ℚ)
              else diameter_threshold
                (get_unit_type g.inner_device_specification_field)) ≤ d) ∧
           (grade_single_geometry_result g.inner_device_specification_field
              (some d) = .warning ↔
             0 < d ∧ d <
              (if is_length_field g.inner_device_specification_field then (5 : ℚ)
               else diameter_threshold
                 (get_unit_type g.inner_device_specification_field))) ∧
           (grade_single_geometry_result g.inner_device_specification_field
              (some d) = .fail ↔ d ≤ 0)) ∧
      ((g.outer_device_specification_value = none ∨
        g.inner_device_specification_value = none) →
         grade_single_geometry_result g.inner_device_specification_field
           (geometry_math g) = .NA)) ∧
    diameter_threshold (some "in") = 3 / 1000 ∧
    diameter_threshold (some "mm") = 762 / 10000 ∧
    diameter_threshold (some "F") = 23091 / 100000 ∧
    LENGTH_THRESHOLD_CM = 5 := by
  refine ⟨?_, rfl, rfl, rfl, rfl⟩
  intro g hg
  simp only [geometry_check, geometry_logic, List.flatMap_cons, List.flatMap_nil,
    List.map_cons, List.map_nil, List.append_nil, List.mem_append, List.mem_cons,
    List.mem_singleton, List.not_mem_nil, or_false] at hg
  rcases hg with (rfl | rfl) | (rfl | rfl) | (rfl | rfl) | rfl <;>
    exact aux_geo_row _ rfl
      (by norm_num [is_length_field, contains_length, endswith_cm,
        get_unit_type, diameter_threshold])

/-- Witness for `geometry_row_grading`: the length row of the concrete
example pair grades `fail` (difference `100 − 130 ≤ 0`). -/
theorem geometry_row_grading_witness :
    geo_length_row_example ∈ geometry_check d_inner_math d_outer_math ∧
    grade_single_geometry_result SpecField.length_cm (some (100 - 130)) = .fail := by
  have hmem : geo_length_row_example ∈ geometry_check d_inner_math d_outer_math := by
    decide
  refine ⟨hmem, ?_⟩
  have h := ((geometry_row_grading d_inner_math d_outer_math).1 _ hmem).1
    130 100 rfl rfl (100 - 130) (by decide)
  exact h.2.2.2.mpr (by norm_num)

/-- `mapOpt` succeeds when `f` succeeds on every element. -/
theorem mapOpt_some_of_forall {α β : Type _} {f : α → Option β} :
    ∀ {l : List α}, (∀ x ∈ l, ∃ y, f x = some y) →
      ∃ ys, mapOpt f l = some ys := by
  intro l
  induction l with
  | nil => exact fun _ => ⟨[], rfl⟩
  | cons x xs ih =>
    intro h
    obtain ⟨y, hy⟩ := h x (List.mem_cons_self x xs)
    obtain ⟨ys, hys⟩ := ih fun a ha => h a (List.mem_cons_of_mem x ha)
    exact ⟨y :: ys, by simp [mapOpt, hy, hys]⟩

/-- `mapOpt` preserves length. -/
theorem mapOpt_length {α β : Type _} {f : α → Option β} :
    ∀ {l : List α} {ys : List β}, mapOpt f l = some ys → ys.length = l.length := by
  intro l
  induction l with
  | nil =>
    intro ys h
    simp only [mapOpt] at h
    cases h
    rfl
  | cons x xs ih =>
    intro ys h
    simp only [mapOpt] at h
    cases hx : f x with
    | none => rw [hx] at h; cases h
    | some y =>
      rw [hx] at h
      cases hxs : mapOpt f xs with
      | none => rw [hxs] at h; cases h
      | some ys' =>
        rw [hxs] at h
        cases h
        simp [ih hxs]

/-- Every element of a `mapOpt` result comes from an element of the input. -/
theorem mapOpt_mem {α β : Type _} {f : α → Option β} :
    ∀ {l : List α} {ys : List β}, mapOpt f l = some ys →
      ∀ y ∈ ys, ∃ x ∈ l, f x = some y := by
  intro l
  induction l with
  | nil =>
    intro ys h
    simp only [mapOpt] at h
    cases h
    intro y hy
    cases hy
  | cons x xs ih =>
    intro ys h
    simp only [mapOpt] at h
    cases hx : f x with
    | none => rw [hx] at h; cases h
    | some y0 =>
      rw [hx] at h
      cases hxs : mapOpt f xs with
      | none => rw [hxs] at h; cases h
      | some ys' =>
        rw [hxs] at h
        cases h
        intro y hy
        rcases List.mem_cons.mp hy with rfl | hy'
        · exact ⟨x, List.mem_cons_self x xs, hx⟩
        · obtain ⟨a, ha, hfa⟩ := ih hxs y hy'
          exact ⟨a, List.mem_cons_of_mem x ha, hfa⟩

/-- `evluate` grades each row `pass`, `fail` or `NA`. -/
theorem evluateRow_codomain (r : Row) (s : Status) (h : evluateRow r = some s) :
    s = .pass ∨ s = .fail ∨ s = .NA := by
  rw [evluateRow] at h
  split at h
  · split at h
    · cases h; tauto
    · cases h; tauto
    · split at h <;> split at h <;>
        first
          | (rw [Option.some_inj] at h; subst h; split_ifs <;> tauto)
          | simp at h
  · cases h; tauto

/-- A range value can only sit in a compatibility field whose operator is
`=`. -/
theorem compat_get_range_op (d : Device) (cf : CompatField) (lo hi : ℚ)
    (h : compat_get d cf = some (.range lo hi)) :
    (compat_field_logic cf).operator = .eq := by
  cases cf <;> first | rfl | simp [compat_get] at h

/-- Rows prepared from devices never put a range value under a `<=` / `>=`
operator. -/
theorem mkHolder_row_op (inner outer : Device) (r : Row)
    (hr : r ∈ mkHolder inner outer) (lo hi : ℚ)
    (hcv : r.compat_value = some (.range lo hi)) :
    (compat_field_logic r.compatibility_field).operator = .eq := by
  rw [mkHolder, List.mem_append] at hr
  rcases hr with hr | hr <;>
    [rw [prep_inner] at hr; rw [prep_outer] at hr] <;>
    · rw [List.mem_flatMap] at hr
      obtain ⟨cf, -, hr⟩ := hr
      rw [List.mem_map] at hr
      obtain ⟨f, -, rfl⟩ := hr
      exact compat_get_range_op _ _ _ _ (by simpa using hcv)

/-- Every prepared row grades successfully (no Python `ValueError`). -/
theorem evluateRow_isSome (r : Row)
    (hwf : ∀ lo hi, r.compat_value = some (.range lo hi) →
      (compat_field_logic r.compatibility_field).operator = .eq) :
    ∃ s, evluateRow r = some s := by
  rw [evluateRow]
  split
  · cases hcv : r.compat_value with
    | none => exact ⟨.NA, by simp [hcv]⟩
    | some cv =>
      cases hsv : r.spec_value with
      | none => exact ⟨.NA, by cases cv <;> simp [hcv, hsv]⟩
      | some sv =>
        cases hop : (compat_field_logic r.compatibility_field).operator with
        | le =>
          cases cv with
          | single c =>
            exact ⟨if sv ≤ c then .pass else .fail, by simp [hcv, hsv, hop]⟩
          | range lo hi => exact absurd (hwf lo hi hcv) (by simp [hop])
        | ge =>
          cases cv with
          | single c =>
            exact ⟨if sv ≥ c then .pass else .fail, by simp [hcv, hsv, hop]⟩
          | range lo hi => exact absurd (hwf lo hi hcv) (by simp [hop])
        | eq =>
          cases cv with
          | single c =>
            exact ⟨if sv = c then .pass else .fail, by simp [hcv, hsv, hop]⟩
          | range lo hi =>
            exact ⟨if sv ≥ lo ∧ sv ≤ hi then .pass else .fail,
              by simp [hcv, hsv, hop]⟩
  · exact ⟨.NA, rfl⟩

/-- The verdict fold of `compatibility_grade` on a non-empty list of
pass/fail/NA statuses. -/
theorem compatibility_grade_char (sts : List Status) (hne : sts ≠ [])
    (hcod : ∀ s ∈ sts, s = .pass ∨ s = .fail ∨ s = .NA) :
    (compatibility_grade sts).getD .NA =
      if sts.contains .pass then .pass
      else if sts.contains .fail then .fail else .NA := by
  rw [compatibility_grade]
  by_cases hp : Status.pass ∈ sts
  · simp [hp]
  · by_cases hf : Status.fail ∈ sts
    · simp [hp, hf]
    · have hNA : ∀ s ∈ sts, s = .NA := by
        intro s hs
        rcases hcod s hs with rfl | rfl | rfl
        · exact absurd hs hp
        · exact absurd hs hf
        · rfl
      obtain ⟨s0, hs0⟩ := List.exists_mem_of_ne_nil sts hne
      have hmem : Status.NA ∈ sts := (hNA s0 hs0) ▸ hs0
      simp [hp, hf, hmem]
      rw [if_pos hNA]
      rfl

/-- C2: every compatibility row of an evaluated pair grades `NA` iff an
applicability flag is false or a value is missing, otherwise it grades by
the numeric comparison of its operator (`<=`, `>=`, `=` with range support);
and the pair's compatibility verdict is pass if any row passed, else fail if
any row failed, else NA. -/
theorem compat_row_and_verdict_grading (inner outer : Device) :
    (∀ r ∈ mkHolder inner outer, ∃ s, evluateRow r = some s ∧
       (s = .NA ↔ (¬(r.applicable_category = true ∧ r.applicable_spec_field = true) ∨
          r.compat_value = none ∨ r.spec_value = none)) ∧
       (∀ cv sv, r.compat_value = some cv → r.spec_value = some sv →
          r.applicable_category = true → r.applicable_spec_field = true →
          ((compat_field_logic r.compatibility_field).operator = .le →
             ∃ c, cv = .single c ∧ s = if sv ≤ c then .pass else .fail) ∧
          ((compat_field_logic r.compatibility_field).operator = .ge →
             ∃ c, cv = .single c ∧ s = if c ≤ sv then .pass else .fail) ∧
          ((compat_field_logic r.compatibility_field).operator = .eq →
             (∀ c, cv = .single c → s = if sv = c then .pass else .fail) ∧
             (∀ lo hi, cv = .range lo hi →
                s = if lo ≤ sv ∧ sv ≤ hi then .pass else .fail)))) ∧
    (∃ sts, evluate (mkHolder inner outer) = some sts ∧
       (compatibility_grade sts).getD .NA =
         (if sts.contains .pass then .pass
          else if sts.contains .fail then .fail else .NA)) := by
  have hforall : ∀ r ∈ mkHolder inner outer, ∃ s, evluateRow r = some s :=
    fun r hr => evluateRow_isSome r (mkHolder_row_op inner outer r hr)
  constructor
  · intro r hr
    have hwf := mkHolder_row_op inner outer r hr
    obtain ⟨s, hs⟩ := hforall r hr
    refine ⟨s, hs, ?_, ?_⟩
    · by_cases happ : (r.applicable_spec_field && r.applicable_category) = true
      · rw [Bool.and_eq_true] at happ
        obtain ⟨hspec, hcat⟩ := happ
        rw [evluateRow] at hs
        rw [if_pos (by simp [hspec, hcat])] at hs
        cases hcv : r.compat_value with
        | none =>
          simp only [hcv] at hs
          rw [Option.some_inj] at hs
          subst hs
          simp [hcv]
        | some cv =>
          cases hsv : r.spec_value with
          | none =>
            simp only [hcv, hsv] at hs
            rw [Option.some_inj] at hs
            subst hs
            simp [hsv]
          | some sv =>
            have hsne : s ≠ .NA := by
              simp only [hcv, hsv] at hs
              cases hop : (compat_field_logic r.compatibility_field).operator <;>
                rw [hop] at hs <;>
                cases cv <;>
                first
                  | (rw [Option.some_inj] at hs; subst hs; split_ifs <;> simp)
                  | exact absurd (hwf _ _ hcv) (by simp [hop])
            simp [hsne, hcv, hsv, hspec, hcat]
      · rw [evluateRow, if_neg happ] at hs
        rw [Option.some_inj] at hs
        subst hs
        have : ¬(r.applicable_category = true ∧ r.applicable_spec_field = true) := by
          intro ⟨h1, h2⟩
          exact happ (by simp [h1, h2])
        simp [this]
    · intro cv sv hcv hsv hcat hspec
      rw [evluateRow, if_pos (by simp [hspec, hcat])] at hs
      simp only [hcv, hsv] at hs
      refine ⟨?_, ?_, ?_⟩
      · intro hop
        rw [hop] at hs
        cases cv with
        | single c =>
          rw [Option.some_inj] at hs
          exact ⟨c, rfl, hs.symm⟩
        | range lo hi => exact absurd (hwf _ _ hcv) (by simp [hop])
      · intro hop
        rw [hop] at hs
        cases cv with
        | single c =>
          rw [Option.some_inj] at hs
          exact ⟨c, rfl, hs.symm⟩
        | range lo hi => exact absurd (hwf _ _ hcv) (by simp [hop])
      · intro hop
        rw [hop] at hs
        constructor
        · intro c hc
          subst hc
          rw [Option.some_inj] at hs
          exact hs.symm
        · intro lo hi hrange
          subst hrange
          rw [Option.some_inj] at hs
          exact hs.symm
  · obtain ⟨sts, hsts⟩ := mapOpt_some_of_forall hforall
    have hlen : sts.length = (mkHolder inner outer).length := mapOpt_length hsts
    have hne : sts ≠ [] := by
      intro hnil
      rw [hnil] at hlen
      have h36 : (mkHolder inner outer).length = 36 := rfl
      simp at hlen
      omega
    have hcod : ∀ s ∈ sts, s = .pass ∨ s = .fail ∨ s = .NA := by
      intro s hsmem
      obtain ⟨r, -, hr⟩ := mapOpt_mem hsts s hsmem
      exact evluateRow_codomain r s hr
    exact ⟨sts, hsts, compatibility_grade_char sts hne hcod⟩

/-- Witness for `compat_row_and_verdict_grading`: the first prepared row of
the example pair grades `NA` (its spec-field applicability flag is
false). -/
theorem compat_row_and_verdict_grading_witness :
    c2_row ∈ mkHolder d_inner_math d_outer_math ∧
    ∃ s, evluateRow c2_row = some s ∧ s = .NA := by
  have hmem : c2_row ∈ mkHolder d_inner_math d_outer_math := by decide
  obtain ⟨s, hs, hiff, -⟩ :=
    (compat_row_and_verdict_grading d_inner_math d_outer_math).1 c2_row hmem
  exact ⟨hmem, s, hs, hiff.mpr (by simp [c2_row])⟩

/-- Every result accumulated by the `n1_step` fold carries the evaluated
pair statuses of its own subset, with status `pass` iff all pairs pass. -/
theorem aux_n1_fold (devices : List (String × List String))
    (database : List (String × Device)) (chain : ChainSpec) :
    ∀ (idxs : List ℕ) (acc res : List SubsetResult),
      idxs.foldlM (n1_step devices database chain) acc = some res →
      (∀ r ∈ acc, ∃ sts,
        n1_subset_pair_statuses devices database r.subset_sequence
          r.subset_levels = some sts ∧
        (r.status = "pass" ↔ ∀ s ∈ sts, overall_passing s = true)) →
      ∀ r ∈ res, ∃ sts,
        n1_subset_pair_statuses devices database r.subset_sequence
          r.subset_levels = some sts ∧
        (r.status = "pass" ↔ ∀ s ∈ sts, overall_passing s = true) := by
  intro idxs
  induction idxs with
  | nil =>
    intro acc res h hacc
    simp only [List.foldlM_nil] at h
    cases h
    exact hacc
  | cons i idxs ih =>
    intro acc res h hacc
    rw [List.foldlM_cons] at h
    cases hstep : n1_step devices database chain acc i with
    | none =>
      rw [hstep] at h
      simp at h
    | some acc' =>
      rw [hstep] at h
      simp only [Option.bind_eq_bind, Option.some_bind] at h
      refine ih acc' res h ?_
      intro r hr
      rw [n1_step] at hstep
      split at hstep
      · cases hstep
        exact hacc r hr
      · rcases Option.map_eq_some'.mp hstep with ⟨sts, hsts, rfl⟩
        rcases List.mem_append.mp hr with hr' | hr'
        · exact hacc r hr'
        · rcases List.mem_singleton.mp hr' with rfl
          refine ⟨sts, hsts, ?_⟩
          by_cases hall : sts.all overall_passing = true
          · rw [List.all_eq_true] at hall
            simp [hall]
          · have hnot : ¬∀ s ∈ sts, overall_passing s = true := by
              rw [← List.all_eq_true]
              exact hall
            simp only [hnot, iff_false]
            simp only [List.all_eq_true] at hall
            simp [hall]

/-- C10: a chain with fewer than 3 devices contributes no subset results;
and every reported subset has status `pass` iff every generated variant
pair in every connection of the subset has a passing overall status (a
single failing variant pair fails the subset — no per-product-combination
rollup). -/
theorem n1_subsets_spec (devices : List (String × List String))
    (database : List (String × Device)) (chain : ChainSpec) :
    (chain.sequence.length < 3 → n1_for_chain devices database chain = some []) ∧
    (∀ res, n1_for_chain devices database chain = some res →
       ∀ r ∈ res, ∃ sts,
         n1_subset_pair_statuses devices database r.subset_sequence
           r.subset_levels = some sts ∧
         (r.status = "pass" ↔ ∀ s ∈ sts, overall_passing s = true)) := by
  constructor
  · intro h
    rw [n1_for_chain, if_pos h]
  · intro res hres
    rw [n1_for_chain] at hres
    split at hres
    · cases hres
      intro r hr
      cases hr
    · exact aux_n1_fold devices database chain _ [] res hres (by intro r hr; cases hr)

/-- Witness for `n1_subsets_spec` on the concrete three-device example: the
subset dropping device A evaluates B→C, whose single pair fails, so the
subset is reported `fail`. -/
theorem n1_subsets_spec_witness :
    n1_for_chain n1_devices n1_database n1_chain = some n1_result_example ∧
    (∃ sts, n1_subset_pair_statuses n1_devices n1_database ["B", "C"] ["L2", "L1"]
        = some sts ∧ (("fail" : String) = "pass" ↔ ∀ s ∈ sts, overall_passing s = true)) := by
  refine ⟨by decide, ?_⟩
  exact (n1_subsets_spec n1_devices n1_database n1_chain).2 n1_result_example
    (by decide)
    { removed_device := "A", subset_sequence := ["B", "C"],
      subset_levels := ["L2", "L1"], status := "fail" }
    (by decide)

/-- `toDigitsCore` never shrinks the accumulator. -/
theorem aux_toDigitsCore_length (b : ℕ) :
    ∀ (fuel n : ℕ) (ds : List Char),
      ds.length ≤ (Nat.toDigitsCore b fuel n ds).length := by
  intro fuel
  induction fuel with
  | zero =>
    intro n ds
    rw [Nat.toDigitsCore]
  | succ f ih =>
    intro n ds
    rw [Nat.toDigitsCore]
    split
    · simp
    · calc ds.length ≤ (Nat.digitChar (n % b) :: ds).length := by simp
        _ ≤ _ := ih (n / b) _

/-- The digit list of a natural number is non-empty. -/
theorem aux_toDigits_ne_nil (b n : ℕ) : Nat.toDigits b n ≠ [] := by
  rw [Nat.toDigits, Nat.toDigitsCore]
  split
  · simp
  · intro h
    have := aux_toDigitsCore_length b n (n / b) [Nat.digitChar (n % b)]
    rw [h] at this
    simp at this

/-- `str(n)` for a natural number is non-empty. -/
theorem aux_toString_nat_ne_empty (n : ℕ) : toString n ≠ "" := by
  intro h
  have : (Nat.toDigits 10 n) = [] := by
    have := congrArg String.data h
    simpa [toString, Nat.repr, List.asString] using this
  exact aux_toDigits_ne_nil 10 n this

/-- `str(i)` for an integer is non-empty. -/
theorem aux_toString_int_ne_empty (i : ℤ) : toString i ≠ "" := by
  cases i with
  | ofNat m =>
    show toString m ≠ ""
    exact aux_toString_nat_ne_empty m
  | negSucc m =>
    show "-" ++ toString (m + 1) ≠ ""
    intro h
    have hd := congrArg String.data h
    rw [String.data_append] at hd
    simp at hd

/-- `replace('.', '_')` is idempotent. -/
theorem replaceDots_idem (s : String) :
    replaceDots (replaceDots s) = replaceDots s := by
  rw [replaceDots, replaceDots]
  congr 1
  rw [List.map_map]
  apply List.map_congr_left
  intro c _
  by_cases h : c = '.'
  · simp [h]
  · simp [Function.comp, h]

/-- `replace('.', '_')` preserves non-emptiness. -/
theorem replaceDots_ne_empty {s : String} (h : s ≠ "") : replaceDots s ≠ "" := by
  intro hc
  apply h
  have := congrArg String.data hc
  simp only [replaceDots] at this
  rcases s with ⟨l⟩
  cases l
  · rfl
  · simp at this

/-- Sanitized keys are never empty. -/
theorem sanitize_key_ne_empty (k : PyKey) : sanitize_key k ≠ "" := by
  cases k with
  | none => exact replaceDots_ne_empty (by decide)
  | str s =>
    by_cases h : s = ""
    · rw [sanitize_key, if_pos h]
      exact replaceDots_ne_empty (by decide)
    · rw [sanitize_key, if_neg h]
      exact replaceDots_ne_empty h
  | int i => exact replaceDots_ne_empty (aux_toString_int_ne_empty i)

/-- Re-sanitizing an already sanitized key is the identity. -/
theorem sanitize_key_str_fix (k : PyKey) :
    sanitize_key (.str (sanitize_key k)) = sanitize_key k := by
  have hne : sanitize_key k ≠ "" := sanitize_key_ne_empty k
  have hstep : sanitize_key (.str (sanitize_key k)) =
      replaceDots (sanitize_key k) := by
    rw [sanitize_key, if_neg hne]
  rw [hstep]
  cases k with
  | none =>
    rw [sanitize_key]
    exact replaceDots_idem _
  | str s =>
    rw [sanitize_key]
    exact replaceDots_idem _
  | int i =>
    rw [sanitize_key]
    exact replaceDots_idem _

/-- Elements of `dictInsert m k v` come from `m` or are `(k, v)`. -/
theorem dictInsert_subset (m : List (PyKey × PyVal)) (k : PyKey) (v : PyVal) :
    ∀ p ∈ dictInsert m k v, p ∈ m ∨ p = (k, v) := by
  intro p hp
  rw [dictInsert] at hp
  split at hp
  · rw [List.mem_map] at hp
    obtain ⟨q, hq, hpq⟩ := hp
    by_cases h : q.1 = k
    · rw [if_pos h] at hpq
      right
      exact hpq.symm
    · rw [if_neg h] at hpq
      left
      exact hpq ▸ hq
  · rcases List.mem_append.mp hp with h | h
    · left
      exact h
    · right
      simpa using h

/-- Elements of the rebuilt dict come from the accumulator or the entry
list. -/
theorem aux_foldl_dictInsert_mem :
    ∀ (l acc : List (PyKey × PyVal)),
      ∀ p ∈ l.foldl (fun acc kv => dictInsert acc kv.1 kv.2) acc,
        p ∈ acc ∨ p ∈ l := by
  intro l
  induction l with
  | nil =>
    intro acc p hp
    left
    simpa using hp
  | cons kv l ih =>
    intro acc p hp
    rcases ih (dictInsert acc kv.1 kv.2) p hp with h | h
    · rcases dictInsert_subset _ _ _ p h with h' | h'
      · left
        exact h'
      · right
        rw [h']
        simp
    · right
      exact List.mem_cons_of_mem _ h

/-- Elements of `dictOfEntries l` are entries of `l`. -/
theorem dictOfEntries_mem (l : List (PyKey × PyVal)) :
    ∀ p ∈ dictOfEntries l, p ∈ l := by
  intro p hp
  rcases aux_foldl_dictInsert_mem l [] p hp with h | h
  · cases h
  · exact h

/-- `dictInsert` leaves the key list unchanged on overwrite and appends the
new key otherwise. -/
theorem dictInsert_keys (m : List (PyKey × PyVal)) (k : PyKey) (v : PyVal) :
    (dictInsert m k v).map Prod.fst =
      if m.any (fun kv => kv.1 = k) then m.map Prod.fst
      else m.map Prod.fst ++ [k] := by
  rw [dictInsert]
  split
  · rw [List.map_map]
    apply List.map_congr_left
    intro q _
    by_cases h : q.1 = k
    · simp [h]
    · simp [Function.comp, h]
  · simp

/-- `dictInsert` preserves key distinctness. -/
theorem dictInsert_keys_nodup (m : List (PyKey × PyVal)) (k : PyKey) (v : PyVal)
    (h : (m.map Prod.fst).Nodup) :
    ((dictInsert m k v).map Prod.fst).Nodup := by
  rw [dictInsert_keys]
  split
  · exact h
  · rename_i hany
    have hk : k ∉ m.map Prod.fst := by
      intro hmem
      rw [List.mem_map] at hmem
      obtain ⟨q, hq, hq1⟩ := hmem
      exact hany (by simp only [List.any_eq_true]; exact ⟨q, hq, by simp [hq1]⟩)
    simp [List.nodup_append, h, hk]

/-- The rebuilt dict has distinct keys. -/
theorem dictOfEntries_keys_nodup (l : List (PyKey × PyVal)) :
    ((dictOfEntries l).map Prod.fst).Nodup := by
  have haux : ∀ (lst acc : List (PyKey × PyVal)), (acc.map Prod.fst).Nodup →
      ((lst.foldl (fun acc kv => dictInsert acc kv.1 kv.2) acc).map Prod.fst).Nodup := by
    intro lst
    induction lst with
    | nil => intro acc h; simpa using h
    | cons kv lst ih =>
      intro acc h
      exact ih (dictInsert acc kv.1 kv.2) (dictInsert_keys_nodup _ _ _ h)
  exact haux l [] (by simp)

/-- Inserting a fresh key appends. -/
theorem dictInsert_of_not_mem (m : List (PyKey × PyVal)) (k : PyKey) (v : PyVal)
    (h : k ∉ m.map Prod.fst) :
    dictInsert m k v = m ++ [(k, v)] := by
  rw [dictInsert, if_neg]
  intro hany
  rw [List.any_eq_true] at hany
  obtain ⟨q, hq, hq1⟩ := hany
  exact h (List.mem_map.mpr ⟨q, hq, by simpa using hq1⟩)

/-- Rebuilding a dict whose keys are already distinct is the identity. -/
theorem dictOfEntries_of_nodup (l : List (PyKey × PyVal))
    (h : (l.map Prod.fst).Nodup) : dictOfEntries l = l := by
  have haux : ∀ (lst acc : List (PyKey × PyVal)),
      ((acc ++ lst).map Prod.fst).Nodup →
      lst.foldl (fun acc kv => dictInsert acc kv.1 kv.2) acc = acc ++ lst := by
    intro lst
    induction lst with
    | nil =>
      intro acc _
      simp
    | cons kv lst ih =>
      intro acc hnd
      obtain ⟨k, v⟩ := kv
      have hk : k ∉ acc.map Prod.fst := by
        intro hmem
        rw [List.map_append, List.nodup_append] at hnd
        exact hnd.2.2 hmem (by simp)
      show List.foldl _ (dictInsert acc k v) lst = _
      rw [dictInsert_of_not_mem acc k v hk]
      have := ih (acc ++ [(k, v)]) (by simpa using hnd)
      rw [this]
      simp
  exact haux l [] (by simpa using h)

/-- Elements of `sanitizeList l` are sanitizations of elements of `l`. -/
theorem sanitizeList_mem :
    ∀ (l : List PyVal), ∀ y ∈ sanitizeList l,
      ∃ x ∈ l, y = sanitize_for_firestore x := by
  intro l
  induction l with
  | nil =>
    intro y hy
    rw [sanitizeList] at hy
    cases hy
  | cons x l ih =>
    intro y hy
    rw [sanitizeList] at hy
    rcases List.mem_cons.mp hy with rfl | hy'
    · exact ⟨x, by simp, rfl⟩
    · obtain ⟨x', hx', rfl⟩ := ih y hy'
      exact ⟨x', by simp [hx'], rfl⟩

/-- `sanitizeList` is the identity on pointwise-fixed lists. -/
theorem sanitizeList_fixed :
    ∀ (l : List PyVal), (∀ x ∈ l, sanitize_for_firestore x = x) →
      sanitizeList l = l := by
  intro l
  induction l with
  | nil => intro _; rw [sanitizeList]
  | cons x l ih =>
    intro h
    rw [sanitizeList, h x (by simp), ih fun a ha => h a (by simp [ha])]

/-- Elements of `sanitizeEntries l` are sanitized entries of `l`. -/
theorem sanitizeEntries_mem :
    ∀ (l : List (PyKey × PyVal)), ∀ p ∈ sanitizeEntries l,
      ∃ q ∈ l, p = (.str (sanitize_key q.1), sanitize_for_firestore q.2) := by
  intro l
  induction l with
  | nil =>
    intro p hp
    rw [sanitizeEntries] at hp
    cases hp
  | cons kv l ih =>
    obtain ⟨k, v⟩ := kv
    intro p hp
    rw [sanitizeEntries] at hp
    rcases List.mem_cons.mp hp with rfl | hp'
    · exact ⟨(k, v), by simp, rfl⟩
    · obtain ⟨q, hq, rfl⟩ := ih p hp'
      exact ⟨q, by simp [hq], rfl⟩

/-- `sanitizeEntries` is the identity on pointwise-fixed entry lists. -/
theorem sanitizeEntries_fixed :
    ∀ (l : List (PyKey × PyVal)),
      (∀ p ∈ l, PyKey.str (sanitize_key p.1) = p.1 ∧
        sanitize_for_firestore p.2 = p.2) →
      sanitizeEntries l = l := by
  intro l
  induction l with
  | nil => intro _; rw [sanitizeEntries]
  | cons kv l ih =>
    obtain ⟨k, v⟩ := kv
    intro h
    rw [sanitizeEntries]
    have hkv := h (k, v) (by simp)
    rw [show (PyKey.str (sanitize_key k), sanitize_for_firestore v) = (k, v) by
      exact Prod.ext hkv.1 hkv.2]
    rw [ih fun p hp => h p (by simp [hp])]

/-- Size-bounded idempotence of `sanitize_for_firestore`. -/
theorem aux_sanitize_bound :
    ∀ (n : ℕ) (v : PyVal), sizeOf v ≤ n →
      sanitize_for_firestore (sanitize_for_firestore v) =
        sanitize_for_firestore v := by
  intro n
  induction n with
  | zero =>
    intro v hv
    exfalso
    cases v <;> simp at hv
  | succ n ih =>
    intro v hv
    cases v with
    | other s => rfl
    | list items =>
      have hsize : ∀ x ∈ items, sizeOf x ≤ n := by
        intro x hx
        have h1 := List.sizeOf_lt_of_mem hx
        have h2 : sizeOf (PyVal.list items) = 1 + sizeOf items := by simp
        omega
      have h1 : sanitize_for_firestore (PyVal.list items) =
          .list (sanitizeList items) := by rw [sanitize_for_firestore]
      have h2 : sanitize_for_firestore (PyVal.list (sanitizeList items)) =
          .list (sanitizeList (sanitizeList items)) := by rw [sanitize_for_firestore]
      rw [h1, h2]
      congr 1
      apply sanitizeList_fixed
      intro y hy
      obtain ⟨x, hx, rfl⟩ := sanitizeList_mem items y hy
      exact ih x (hsize x hx)
    | dict entries =>
      have hsize : ∀ q ∈ entries, sizeOf q.2 ≤ n := by
        intro q hq
        have h1 := List.sizeOf_lt_of_mem hq
        have h2 : sizeOf (PyVal.dict entries) = 1 + sizeOf entries := by simp
        have h3 : sizeOf q = 1 + sizeOf q.1 + sizeOf q.2 := by
          obtain ⟨a, b⟩ := q
          simp
        omega
      have h1 : sanitize_for_firestore (PyVal.dict entries) =
          .dict (dictOfEntries (sanitizeEntries entries)) := by
        rw [sanitize_for_firestore]
      have h2 : sanitize_for_firestore
            (PyVal.dict (dictOfEntries (sanitizeEntries entries))) =
          .dict (dictOfEntries (sanitizeEntries
            (dictOfEntries (sanitizeEntries entries)))) := by
        rw [sanitize_for_firestore]
      rw [h1, h2]
      congr 1
      have hfix : sanitizeEntries (dictOfEntries (sanitizeEntries entries)) =
          dictOfEntries (sanitizeEntries entries) := by
        apply sanitizeEntries_fixed
        intro p hp
        have hp' := dictOfEntries_mem _ p hp
        obtain ⟨q, hq, rfl⟩ := sanitizeEntries_mem entries p hp'
        refine ⟨?_, ?_⟩
        · show PyKey.str (sanitize_key (PyKey.str (sanitize_key q.1))) = _
          rw [sanitize_key_str_fix]
        · show sanitize_for_firestore (sanitize_for_firestore q.2) = _
          rw [ih q.2 (hsize q hq)]
      rw [hfix]
      exact dictOfEntries_of_nodup _ (dictOfEntries_keys_nodup _)

/-- C8: session key sanitization is idempotent:
`sanitize_for_firestore (sanitize_for_firestore v) = sanitize_for_firestore v`
for every value. -/
theorem sanitize_for_firestore_idempotent (v : PyVal) :
    sanitize_for_firestore (sanitize_for_firestore v) =
      sanitize_for_firestore v :=
  aux_sanitize_bound (sizeOf v) v le_rfl

end MedSync
